import Mathlib

/-!
Verification of the GreenCredit AI assessment pipeline.

The definitions below are a shallow embedding of the orchestration logic in
`src/App.tsx` (the `runAnalysis` callback, the `handleInputChange` handler,
the debounced `useEffect`, and the `nextStep`/`prevStep` navigation), of the
stage adapters in `src/services/geminiService.ts`, and of the `AppStep` enum
in `src/types.ts`.  Oracle calls are abstracted by their observable outcome
(success or failure, and where values matter, by the returned payload);
the async control flow of `runAnalysis` is embedded as the trace of events
it emits (stage starts, state publications, error handling), and the React
state cells as explicit state records.
-/

namespace GreenCredit

set_option maxRecDepth 100000

/-- The seven pipeline stages, in the naming of `src/services/geminiService.ts`
(`normalizeData`, `assessFinancialRisk`, `assessSustainabilityRisk`,
`getDecision`, `planUplift`, `simulateClimate`, `getReview`). -/
inductive Stage
  | normalize
  | scoreFinancial
  | scoreSustainability
  | decide
  | planUplift
  | simulateScenarios
  | summarizeForReview
  deriving DecidableEq, Repr, Fintype

/-- The list of all seven stages in pipeline order. -/
def stageList : List Stage :=
  [.normalize, .scoreFinancial, .scoreSustainability, .decide,
   .planUplift, .simulateScenarios, .summarizeForReview]

/-- Observable events of one `runAnalysis` invocation (src/App.tsx lines
56-91): a stage's oracle call being issued, a `setX` publication of a
stage's artifact, the `setStep(AppStep.Normalization)` call, the `catch`
block's `console.error` and `alert`, and the `finally` block's
`setLoading(false)` / `setRealTimeUpdate(false)`. -/
inductive Event
  | startStage (s : Stage)
  | publish (s : Stage)
  | setStepNormalization
  | logError
  | alertUser
  | setLoadingFalse
  | setRealTimeUpdateFalse
  deriving DecidableEq, Repr

/-- Events emitted by the `catch` block of `runAnalysis`: `console.error`
always, `alert` only when the run is not a real-time (background) one. -/
def catchEvents (isRealTime : Bool) : List Event :=
  Event.logError :: (if isRealTime then [] else [Event.alertUser])

/-- Event trace of the `try` block of `runAnalysis`, given the outcome
`ok s` of each stage's oracle call.  Mirrors src/App.tsx lines 60-83:
`await normalizeData` then `setNormalized`; `Promise.all` of the two risk
scorers (both calls are issued before the joint await, and neither result
is published unless both succeed) then both `set`s; `await getDecision`
then `setDecision`; `Promise.all` of `planUplift`/`simulateClimate` then
both `set`s; `await getReview` then `setReview`; finally
`setStep(AppStep.Normalization)` when not real-time.  A rejected await
jumps to the `catch` block. -/
def tryEvents (ok : Stage → Bool) (isRealTime : Bool) : List Event :=
  Event.startStage .normalize ::
  (if ok .normalize then
    Event.publish .normalize :: Event.startStage .scoreFinancial ::
      Event.startStage .scoreSustainability ::
    (if ok .scoreFinancial && ok .scoreSustainability then
      Event.publish .scoreFinancial :: Event.publish .scoreSustainability ::
        Event.startStage .decide ::
      (if ok .decide then
        Event.publish .decide :: Event.startStage .planUplift ::
          Event.startStage .simulateScenarios ::
        (if ok .planUplift && ok .simulateScenarios then
          Event.publish .planUplift :: Event.publish .simulateScenarios ::
            Event.startStage .summarizeForReview ::
          (if ok .summarizeForReview then
            Event.publish .summarizeForReview ::
              (if isRealTime then [] else [Event.setStepNormalization])
          else catchEvents isRealTime)
        else catchEvents isRealTime)
      else catchEvents isRealTime)
    else catchEvents isRealTime)
  else catchEvents isRealTime)

/-- Full event trace of one `runAnalysis(isRealTime)` invocation: the `try`
(or `try`+`catch`) events followed by the `finally` block's events. -/
def runTrace (ok : Stage → Bool) (isRealTime : Bool) : List Event :=
  tryEvents ok isRealTime ++ [Event.setLoadingFalse, Event.setRealTimeUpdateFalse]

/-- Rank of a stage in the dependency chain of `runAnalysis`: stages issued
by the same `Promise.all` share a rank; a stage only depends on stages of
strictly smaller rank. -/
def rank : Stage → Nat
  | .normalize => 0
  | .scoreFinancial => 1
  | .scoreSustainability => 1
  | .decide => 2
  | .planUplift => 3
  | .simulateScenarios => 3
  | .summarizeForReview => 4

/-- Effect of one event on the per-stage published flags of the pipeline
state (the `normalized`/`financialRisk`/.../`review` React state cells,
tracked as set-or-not): only `publish` events write, and no event ever
clears a flag (no setter is ever called with `null` in `runAnalysis`). -/
def applyEvent (st : Stage → Bool) : Event → (Stage → Bool)
  | .publish s => fun t => if t = s then true else st t
  | _ => st

/-- Pipeline published-flags resulting from running a trace over a prior
state. -/
def stateFrom (pre : Stage → Bool) (tr : List Event) : Stage → Bool :=
  tr.foldl applyEvent pre

/-- Published flags at the end of a single run started from an empty state. -/
def finalState (ok : Stage → Bool) (isRealTime : Bool) : Stage → Bool :=
  stateFrom (fun _ => false) (runTrace ok isRealTime)

/-- Event `a` occurs in `tr` strictly before event `b` (both at their first
occurrence; every event of `runTrace` occurs at most once). -/
def eventBefore (tr : List Event) (a b : Event) : Prop :=
  a ∈ tr ∧ tr.indexOf a < tr.indexOf b

instance (tr : List Event) (a b : Event) : Decidable (eventBefore tr a b) :=
  inferInstanceAs (Decidable (_ ∧ _))

/-- All seven oracle calls of a run succeed. -/
def allStagesOk (ok : Stage → Bool) : Bool :=
  stageList.all ok

/-- No event of a run ever clears an already-published artifact flag:
`applyEvent` is monotone, hence so is any trace. -/
theorem stateFrom_monotone (tr : List Event) (pre : Stage → Bool) (t : Stage)
    (h : pre t = true) : stateFrom pre tr t = true := by
  induction tr generalizing pre with
  | nil => exact h
  | cons e rest ih =>
    refine ih (applyEvent pre e) ?_
    cases e with
    | publish s =>
      simp only [applyEvent]
      split <;> simp [h]
    | startStage s => exact h
    | setStepNormalization => exact h
    | logError => exact h
    | alertUser => exact h
    | setLoadingFalse => exact h
    | setRealTimeUpdateFalse => exact h

example : runTrace (fun _ => true) false =
    [Event.startStage .normalize, Event.publish .normalize,
     Event.startStage .scoreFinancial, Event.startStage .scoreSustainability,
     Event.publish .scoreFinancial, Event.publish .scoreSustainability,
     Event.startStage .decide, Event.publish .decide,
     Event.startStage .planUplift, Event.startStage .simulateScenarios,
     Event.publish .planUplift, Event.publish .simulateScenarios,
     Event.startStage .summarizeForReview, Event.publish .summarizeForReview,
     Event.setStepNormalization, Event.setLoadingFalse,
     Event.setRealTimeUpdateFalse] := by decide

example : runTrace (fun s => s ≠ Stage.decide) true =
    [Event.startStage .normalize, Event.publish .normalize,
     Event.startStage .scoreFinancial, Event.startStage .scoreSustainability,
     Event.publish .scoreFinancial, Event.publish .scoreSustainability,
     Event.startStage .decide, Event.logError,
     Event.setLoadingFalse, Event.setRealTimeUpdateFalse] := by decide

/-- C2: within every invocation of the pipeline run, stages execute strictly
in dependency order: `assessFinancialRisk` and `assessSustainabilityRisk`
never start before `normalizeData` resolves successfully (its result is
published first); `getDecision` never starts before both risk-score stages
resolve; `planUplift` and `simulateClimate` never start before
`getDecision`'s inputs (both risk scores) are available; `getReview` never
starts before all six prior artifacts exist. -/
theorem c2_dependency_order : ∀ (ok : Stage → Bool) (rt : Bool),
    (Event.startStage .scoreFinancial ∈ runTrace ok rt →
      ok .normalize = true ∧
      eventBefore (runTrace ok rt) (.publish .normalize) (.startStage .scoreFinancial)) ∧
    (Event.startStage .scoreSustainability ∈ runTrace ok rt →
      ok .normalize = true ∧
      eventBefore (runTrace ok rt) (.publish .normalize) (.startStage .scoreSustainability)) ∧
    (Event.startStage .decide ∈ runTrace ok rt →
      ok .scoreFinancial = true ∧ ok .scoreSustainability = true ∧
      eventBefore (runTrace ok rt) (.publish .scoreFinancial) (.startStage .decide) ∧
      eventBefore (runTrace ok rt) (.publish .scoreSustainability) (.startStage .decide)) ∧
    (Event.startStage .planUplift ∈ runTrace ok rt →
      eventBefore (runTrace ok rt) (.publish .scoreFinancial) (.startStage .planUplift) ∧
      eventBefore (runTrace ok rt) (.publish .scoreSustainability) (.startStage .planUplift)) ∧
    (Event.startStage .simulateScenarios ∈ runTrace ok rt →
      eventBefore (runTrace ok rt) (.publish .scoreFinancial) (.startStage .simulateScenarios) ∧
      eventBefore (runTrace ok rt) (.publish .scoreSustainability) (.startStage .simulateScenarios)) ∧
    (Event.startStage .summarizeForReview ∈ runTrace ok rt →
      ∀ t : Stage, t ≠ .summarizeForReview →
        eventBefore (runTrace ok rt) (.publish t) (.startStage .summarizeForReview)) := by
  decide

/-- Witness for C2 at a concrete all-success interactive run: the decide
stage starts, and it does so after both risk scores were published. -/
theorem c2_dependency_order_witness :
    (fun _ : Stage => true) Stage.scoreFinancial = true ∧
    (fun _ : Stage => true) Stage.scoreSustainability = true ∧
    eventBefore (runTrace (fun _ => true) false)
      (.publish .scoreFinancial) (.startStage .decide) ∧
    eventBefore (runTrace (fun _ => true) false)
      (.publish .scoreSustainability) (.startStage .decide) :=
  (c2_dependency_order (fun _ => true) false).2.2.1 (by decide)

/-- C7: in every run, each stage's result is published to the pipeline state
before any later stage's oracle call is issued: `normalized` is set before
the risk scorers start, both risk scores are set before `getDecision`
starts, the decision is set before `planUplift`/`simulateClimate` start,
and uplift and simulations are set before `getReview` starts. -/
theorem c7_publish_before_later_stages : ∀ (ok : Stage → Bool) (rt : Bool),
    (Event.startStage .scoreFinancial ∈ runTrace ok rt →
      eventBefore (runTrace ok rt) (.publish .normalize) (.startStage .scoreFinancial)) ∧
    (Event.startStage .scoreSustainability ∈ runTrace ok rt →
      eventBefore (runTrace ok rt) (.publish .normalize) (.startStage .scoreSustainability)) ∧
    (Event.startStage .decide ∈ runTrace ok rt →
      eventBefore (runTrace ok rt) (.publish .scoreFinancial) (.startStage .decide) ∧
      eventBefore (runTrace ok rt) (.publish .scoreSustainability) (.startStage .decide)) ∧
    (Event.startStage .planUplift ∈ runTrace ok rt →
      eventBefore (runTrace ok rt) (.publish .decide) (.startStage .planUplift)) ∧
    (Event.startStage .simulateScenarios ∈ runTrace ok rt →
      eventBefore (runTrace ok rt) (.publish .decide) (.startStage .simulateScenarios)) ∧
    (Event.startStage .summarizeForReview ∈ runTrace ok rt →
      eventBefore (runTrace ok rt) (.publish .planUplift) (.startStage .summarizeForReview) ∧
      eventBefore (runTrace ok rt) (.publish .simulateScenarios) (.startStage .summarizeForReview)) := by
  decide

/-- Witness for C7 at a concrete all-success background run: the review
stage starts, and it does so after uplift and simulations were published. -/
theorem c7_publish_before_later_stages_witness :
    eventBefore (runTrace (fun _ => true) true)
      (.publish .planUplift) (.startStage .summarizeForReview) ∧
    eventBefore (runTrace (fun _ => true) true)
      (.publish .simulateScenarios) (.startStage .summarizeForReview) :=
  (c7_publish_before_later_stages (fun _ => true) true).2.2.2.2.2 (by decide)

/-- C3: if a started stage of a run fails, the run halts at that stage (no
stage of strictly greater rank is ever started), the failed stage's oracle
call is issued exactly once (never retried), and every artifact published
by an earlier successful stage of the run is still set in the final
pipeline state (retained, not rolled back). -/
theorem c3_failure_halts_run : ∀ (ok : Stage → Bool) (rt : Bool) (s : Stage),
    Event.startStage s ∈ runTrace ok rt → ok s = false →
    (∀ t : Stage, rank s < rank t → Event.startStage t ∉ runTrace ok rt) ∧
    (runTrace ok rt).count (Event.startStage s) = 1 ∧
    (∀ t : Stage, Event.publish t ∈ runTrace ok rt → finalState ok rt t = true) := by
  decide

/-- Witness for C3 at a concrete run whose decide stage fails: no
post-decision stage starts, decide is issued once, and the published
normalized data and risk scores are retained. -/
theorem c3_failure_halts_run_witness :
    (∀ t : Stage, rank Stage.decide < rank t →
      Event.startStage t ∉ runTrace (fun s => s ≠ Stage.decide) true) ∧
    (runTrace (fun s => s ≠ Stage.decide) true).count (Event.startStage .decide) = 1 ∧
    (∀ t : Stage, Event.publish t ∈ runTrace (fun s => s ≠ Stage.decide) true →
      finalState (fun s => s ≠ Stage.decide) true t = true) :=
  c3_failure_halts_run (fun s => s ≠ Stage.decide) true .decide (by decide) (by decide)

/-- C8: on stage failure, run behavior depends on mode.  A background
(real-time) run logs the error, raises no alert, does not change the
navigation step, and clears no previously displayed artifact; an
interactive run logs, raises the alert, and does not advance past the
input step. -/
theorem c8_failure_mode_behavior : ∀ (ok : Stage → Bool),
    allStagesOk ok = false →
    (Event.logError ∈ runTrace ok true ∧
     Event.alertUser ∉ runTrace ok true ∧
     Event.setStepNormalization ∉ runTrace ok true ∧
     ∀ (pre : Stage → Bool) (t : Stage), pre t = true →
       stateFrom pre (runTrace ok true) t = true) ∧
    (Event.logError ∈ runTrace ok false ∧
     Event.alertUser ∈ runTrace ok false ∧
     Event.setStepNormalization ∉ runTrace ok false) := by
  intro ok h
  refine ⟨⟨?_, ?_, ?_, fun pre t ht => stateFrom_monotone _ pre t ht⟩, ?_, ?_, ?_⟩
  all_goals revert h
  all_goals revert ok
  all_goals decide

/-- Witness for C8 at a concrete run whose normalize stage fails. -/
theorem c8_failure_mode_behavior_witness :
    (Event.logError ∈ runTrace (fun _ => false) true ∧
     Event.alertUser ∉ runTrace (fun _ => false) true ∧
     Event.setStepNormalization ∉ runTrace (fun _ => false) true ∧
     ∀ (pre : Stage → Bool) (t : Stage), pre t = true →
       stateFrom pre (runTrace (fun _ => false) true) t = true) ∧
    (Event.logError ∈ runTrace (fun _ => false) false ∧
     Event.alertUser ∈ runTrace (fun _ => false) false ∧
     Event.setStepNormalization ∉ runTrace (fun _ => false) false) :=
  c8_failure_mode_behavior (fun _ => false) (by decide)

/-! Cross-run interleaving model for the generation-discard property.
A run's observable actions are tagged with the generation number of the run
they belong to; the pipeline state records, per stage, which run last wrote
that stage's artifact.  `runAnalysis` (src/App.tsx lines 56-91) calls each
`setX` unconditionally when its awaited oracle call resolves — there is no
generation counter and no comparison anywhere in the component. -/

/-- Generation-tagged events of a run: the run being entered, a stage's
oracle promise resolving, and the subsequent `setX` state publication. -/
inductive WEvent
  | runStart (g : Nat)
  | stageResolve (g : Nat) (s : Stage)
  | publish (g : Nat) (s : Stage)
  deriving DecidableEq, Repr

/-- The stage events of one fully successful `runAnalysis` invocation of
generation `g` after the run has been entered: each oracle promise
resolving and the corresponding `setX` publication, in the program order
of src/App.tsx lines 60-81 (within the two `Promise.all` pairs the
first-listed call is taken to resolve first; the joint publications
follow both resolutions, in source order).  Everything here happens at or
after the run's first `await`, so in the event loop these events can be
scheduled arbitrarily late after the run was entered. -/
def runStageEvents (g : Nat) : List WEvent :=
  [.stageResolve g .normalize, .publish g .normalize,
   .stageResolve g .scoreFinancial, .stageResolve g .scoreSustainability,
   .publish g .scoreFinancial, .publish g .scoreSustainability,
   .stageResolve g .decide, .publish g .decide,
   .stageResolve g .planUplift, .stageResolve g .simulateScenarios,
   .publish g .planUplift, .publish g .simulateScenarios,
   .stageResolve g .summarizeForReview, .publish g .summarizeForReview]

/-- The full event sequence of one successful `runAnalysis` invocation of
generation `g`: the run is entered, then its stages resolve and publish. -/
def runEvents (g : Nat) : List WEvent :=
  .runStart g :: runStageEvents g

/-- Effect of one generation-tagged event on the pipeline state, which maps
each stage to the generation that last published it (`none` = still null).
A `publish g s` event is the corresponding `setX` call: it writes
unconditionally — `runAnalysis` performs no generation check before any
setter. -/
def applyW (st : Stage → Option Nat) : WEvent → (Stage → Option Nat)
  | .publish g s => fun t => if t = s then some g else st t
  | _ => st

/-- Pipeline state after executing a full interleaved trace from the
initial all-null state. -/
def wStateFrom (tr : List WEvent) : Stage → Option Nat :=
  tr.foldl applyW (fun _ => none)

/-- `Interleaving xs ys zs`: `zs` is an order-preserving merge of the two
event sequences `xs` and `ys` — the single-threaded event-loop schedules
of two concurrently in-flight runs. -/
inductive Interleaving : List WEvent → List WEvent → List WEvent → Prop
  | nil : Interleaving [] [] []
  | left {x : WEvent} {xs ys zs : List WEvent} :
      Interleaving xs ys zs → Interleaving (x :: xs) ys (x :: zs)
  | right {y : WEvent} {xs ys zs : List WEvent} :
      Interleaving xs ys zs → Interleaving xs (y :: ys) (y :: zs)

/-- A single sequence is an interleaving of itself with the empty one. -/
theorem interleaving_self_left (l : List WEvent) : Interleaving l [] l := by
  induction l with
  | nil => exact .nil
  | cons x xs ih => exact .left ih

/-- A single sequence is an interleaving of the empty one with itself. -/
theorem interleaving_self_right (l : List WEvent) : Interleaving [] l l := by
  induction l with
  | nil => exact .nil
  | cons y ys ih => exact .right ih

/-- Running the first sequence to completion and then the second is an
interleaving. -/
theorem interleaving_append (l₁ l₂ : List WEvent) :
    Interleaving l₁ l₂ (l₁ ++ l₂) := by
  induction l₁ with
  | nil => simpa using interleaving_self_right l₂
  | cons x xs ih => exact .left ih

/-- Running the second sequence to completion and then the first is an
interleaving. -/
theorem interleaving_append_swap (l₁ l₂ : List WEvent) :
    Interleaving l₁ l₂ (l₂ ++ l₁) := by
  induction l₂ with
  | nil => simpa using interleaving_self_left l₁
  | cons y ys ih => exact .right ih

/-- Generation of a `publish` event for stage `s`, if this event is one. -/
def pubGen (s : Stage) : WEvent → Option Nat
  | .publish g t => if t = s then some g else none
  | _ => none

/-- The generation of the last publication to stage `s` in a trace,
computed by searching the trace from the right. -/
def lastPub (s : Stage) : List WEvent → Option Nat
  | [] => none
  | e :: tr =>
    match lastPub s tr with
    | some g => some g
    | none => pubGen s e

/-- Folding a trace over any starting state yields, at each stage, the last
publication to that stage if there is one and the starting value
otherwise. -/
theorem foldl_applyW_eq_lastPub (tr : List WEvent) (f : Stage → Option Nat)
    (s : Stage) : tr.foldl applyW f s = (lastPub s tr <|> f s) := by
  induction tr generalizing f with
  | nil => simp [lastPub]
  | cons e tr ih =>
    rw [List.foldl_cons, ih (applyW f e)]
    cases hl : lastPub s tr with
    | some g => simp [lastPub, hl]
    | none =>
      cases e with
      | publish g t =>
        by_cases hst : s = t
        · subst hst
          simp [lastPub, hl, pubGen, applyW]
        · simp [lastPub, hl, pubGen, applyW, hst, Ne.symm hst]
      | runStart g => simp [lastPub, hl, pubGen, applyW]
      | stageResolve g t => simp [lastPub, hl, pubGen, applyW]

/-- The stale overlapping schedule used to refute the generation-discard
claim: run G1 is entered first and suspends at its first `await`
(`normalizeData`); while G1 is in flight, run G2 is entered and runs to
completion; only afterwards do G1's slow oracle calls resolve, and each
resolution's `setX` is executed.  Legal for the single-threaded event
loop: everything of G1 past its `runStart` sits behind awaits, so it can
be scheduled after all of G2. -/
def staleTrace : List WEvent :=
  WEvent.runStart 1 :: (runEvents 2 ++ runStageEvents 1)

/-- The schedule `staleTrace` is an interleaved execution of runs G1 and
G2: G1 contributes its entry event up front and its stage events at the
end, G2 contributes its whole run in the middle. -/
theorem staleTrace_interleaving :
    Interleaving (runEvents 1) (runEvents 2) staleTrace :=
  Interleaving.left (interleaving_append_swap (runStageEvents 1) (runEvents 2))

/-- C1 counterexample: in the interleaved schedule `staleTrace`, run G1
starts first and run G2 starts while G1 is still in flight — before G1's
normalize resolves — matching the claim's premise with generations
assigned in start order (G1 before G2).  G2 then completes, yet when G1's
stages subsequently resolve every one of G1's stage completions is
written into the published pipeline state, overwriting G2's results: the
final state holds generation 1's artifacts at every stage both runs
share, not generation 2's as the claim requires.  Nothing is discarded,
because `runAnalysis` has no generation id and no staleness check. -/
theorem c1_generation_discard_counterexample :
    Interleaving (runEvents 1) (runEvents 2) staleTrace ∧
    staleTrace.indexOf (.runStart 1) < staleTrace.indexOf (.runStart 2) ∧
    staleTrace.indexOf (.runStart 2) <
      staleTrace.indexOf (.stageResolve 1 .normalize) ∧
    staleTrace.indexOf (.publish 2 .summarizeForReview) <
      staleTrace.indexOf (.publish 1 .normalize) ∧
    wStateFrom staleTrace Stage.normalize = some 1 ∧
    wStateFrom staleTrace Stage.decide = some 1 ∧
    wStateFrom staleTrace Stage.summarizeForReview = some 1 ∧
    ¬ wStateFrom staleTrace Stage.normalize = some 2 :=
  ⟨staleTrace_interleaving, by decide, by decide, by decide, by decide,
   by decide, by decide, by decide⟩

/-- C1 amended: `runAnalysis` tags runs with no generation id and discards
no stage completion; in any interleaving of two overlapping runs, each
pipeline state field ends up holding the artifact of whichever run
published that stage last in the interleaved schedule (last-writer-wins),
so a superseded run's late completions remain visible. -/
theorem c1_last_writer_wins (tr : List WEvent)
    (_h : Interleaving (runEvents 1) (runEvents 2) tr) (s : Stage) :
    wStateFrom tr s = lastPub s tr := by
  rw [wStateFrom, foldl_applyW_eq_lastPub]
  cases lastPub s tr <;> rfl

/-- Witness for the amended C1 at the overlapping schedule `staleTrace`,
where the newer run G2 starts during G1 and G1's late completions win:
the normalize field indeed holds the last publication to it. -/
theorem c1_last_writer_wins_witness :
    Interleaving (runEvents 1) (runEvents 2) staleTrace ∧
    wStateFrom staleTrace Stage.normalize =
      lastPub Stage.normalize staleTrace :=
  ⟨Interleaving.left (interleaving_append_swap (runStageEvents 1) (runEvents 2)),
   c1_last_writer_wins staleTrace
     (Interleaving.left (interleaving_append_swap (runStageEvents 1) (runEvents 2)))
     Stage.normalize⟩

/-! Wizard step navigation (src/types.ts lines 594-603, src/App.tsx lines
83 and 109-110). -/

/-- The `AppStep` enum of src/types.ts: eight members with explicit numeric
values 1 through 8. -/
inductive AppStep
  | Input
  | Normalization
  | FinancialRisk
  | SustainabilityRisk
  | Decision
  | Uplift
  | Simulation
  | Review
  deriving DecidableEq, Repr, Fintype

/-- The numeric value of each `AppStep` member, as assigned in src/types.ts
(`Input = 1` up to `Review = 8`). -/
def AppStep.val : AppStep → Int
  | .Input => 1
  | .Normalization => 2
  | .FinancialRisk => 3
  | .SustainabilityRisk => 4
  | .Decision => 5
  | .Uplift => 6
  | .Simulation => 7
  | .Review => 8

/-- The `AppStep` member with a given numeric value, if any. -/
def AppStep.ofVal (n : Int) : Option AppStep :=
  [AppStep.Input, .Normalization, .FinancialRisk, .SustainabilityRisk,
   .Decision, .Uplift, .Simulation, .Review].find? (fun s => s.val == n)

/-- The three `setStep` call sites of src/App.tsx: `nextStep` (line 109),
`prevStep` (line 110), and the `setStep(AppStep.Normalization)` after a
successful interactive run (line 83). -/
inductive StepOp
  | next
  | prev
  | interactiveRunSuccess

/-- Effect of one `setStep` call site on the numeric step value, as the
TypeScript enum arithmetic computes it: `Math.min(prev + 1, AppStep.Review)`,
`Math.max(prev - 1, AppStep.Input)`, and the constant `AppStep.Normalization`. -/
def stepAfter (n : Int) : StepOp → Int
  | .next => min (n + 1) (AppStep.val .Review)
  | .prev => max (n - 1) (AppStep.val .Input)
  | .interactiveRunSuccess => AppStep.val .Normalization

/-- Step value after a sequence of `setStep` call sites, starting from a
given value. -/
def stepAfterOps (n : Int) (ops : List StepOp) : Int :=
  ops.foldl stepAfter n

/-- One `setStep` call keeps the numeric step inside the enum's range. -/
theorem stepAfter_bounds (n : Int) (op : StepOp)
    (h₁ : 1 ≤ n) (h₂ : n ≤ 8) : 1 ≤ stepAfter n op ∧ stepAfter n op ≤ 8 := by
  cases op <;> simp [stepAfter, AppStep.val] <;> omega

/-- Every value in 1..8 is the value of an `AppStep` member. -/
theorem ofVal_isSome_of_bounds (n : Int) (h₁ : 1 ≤ n) (h₂ : n ≤ 8) :
    (AppStep.ofVal n).isSome = true := by
  interval_cases n <;> rfl

/-- C10: starting from `AppStep.Input`, every sequence of the component's
step transitions (`nextStep`, `prevStep`, the post-run
`setStep(AppStep.Normalization)`) leaves the step a valid `AppStep` value:
it stays within 1..8 and names an enum member. -/
theorem c10_step_stays_valid (ops : List StepOp) :
    1 ≤ stepAfterOps (AppStep.val .Input) ops ∧
    stepAfterOps (AppStep.val .Input) ops ≤ 8 ∧
    (AppStep.ofVal (stepAfterOps (AppStep.val .Input) ops)).isSome = true := by
  have h : ∀ (l : List StepOp) (n : Int), 1 ≤ n → n ≤ 8 →
      1 ≤ stepAfterOps n l ∧ stepAfterOps n l ≤ 8 := by
    intro l
    induction l with
    | nil => intro n h₁ h₂; exact ⟨h₁, h₂⟩
    | cons op rest ih =>
      intro n h₁ h₂
      have hb := stepAfter_bounds n op h₁ h₂
      exact ih (stepAfter n op) hb.1 hb.2
  have hb := h ops (AppStep.val .Input) (by decide) (by decide)
  exact ⟨hb.1, hb.2, ofVal_isSome_of_bounds _ hb.1 hb.2⟩

/-! Stage adapters and oracle payload validation (src/services/
geminiService.ts).  Every adapter issues one `generateContent` call whose
request config declares a `responseSchema`, and then returns
`JSON.parse(response.text)` directly.  The parsed value is embedded as a
JSON tree; a failed transport or a `JSON.parse` throw is an error
outcome. -/

/-- JSON values, as produced by a successful `JSON.parse`. -/
inductive JValue
  | num (n : Int)
  | str (s : String)
  | jbool (b : Bool)
  | jnull
  | arr (xs : List JValue)
  | obj (fields : List (String × JValue))

/-- Failure of a stage adapter's oracle call before the adapter returns:
the external call erroring or timing out, or `JSON.parse(response.text)`
throwing on malformed text. -/
inductive OracleFailure
  | transport
  | parseFailure
  deriving DecidableEq, Repr

/-- Look up a top-level object field of a JSON value. -/
def JValue.get? (v : JValue) (k : String) : Option JValue :=
  match v with
  | .obj fields => (fields.find? (fun f => f.1 == k)).map Prod.snd
  | _ => none

/-- Whether a JSON value is an object carrying a top-level field `k`. -/
def JValue.hasKey (v : JValue) (k : String) : Bool :=
  (v.get? k).isSome

/-- The `getDecision` adapter (src/services/geminiService.ts lines
115-133): one oracle call, then `return JSON.parse(response.text)`.  The
declared `responseSchema` is request configuration only; the adapter
applies no check whatsoever to the parsed payload before returning it. -/
def getDecision (response : Except OracleFailure JValue) : Except OracleFailure JValue :=
  match response with
  | .error e => .error e
  | .ok v => .ok v

/-- The `normalizeData` adapter (src/services/geminiService.ts lines
17-55): identically, one oracle call followed by
`return JSON.parse(response.text)` with no validation of the parsed
payload. -/
def normalizeData (response : Except OracleFailure JValue) : Except OracleFailure JValue :=
  match response with
  | .error e => .error e
  | .ok v => .ok v

/-- Whether a JSON string is one of the three `status` enum values the
decide stage's declared response schema lists. -/
def validStatusString (s : String) : Bool :=
  s == "Green Approved" || s == "Conditional" || s == "Rejected"

/-- Shape check of a decide payload against the declared decide response
schema (spec section 6: `{greenCreditScore:number, status: enum(Green
Approved,Conditional,Rejected), justification:string,
aprAdjustment:string}`).  This predicate states what validating against
the declared shape would require; the adapter never runs any such check. -/
def validDecisionPayload (v : JValue) : Bool :=
  (match v.get? "greenCreditScore" with | some (.num _) => true | _ => false) &&
  (match v.get? "status" with | some (.str s) => validStatusString s | _ => false) &&
  (match v.get? "justification" with | some (.str _) => true | _ => false) &&
  (match v.get? "aprAdjustment" with | some (.str _) => true | _ => false)

/-- The decision artifact `runAnalysis` publishes for the decide stage:
`setDecision(dec)` with the adapter's return value when the awaited call
resolves, and nothing (the state cell stays null) when it rejects and
control jumps to `catch`. -/
def decisionAfterRun (response : Except OracleFailure JValue) : Option JValue :=
  match getDecision response with
  | .ok v => some v
  | .error _ => none

/-- A decide oracle payload that parses fine but is missing the required
`status` field. -/
def missingStatusPayload : JValue :=
  .obj [("greenCreditScore", .num 72),
        ("justification", .str "Strong financials with moderate ESG risk"),
        ("aprAdjustment", .str "0.75%")]

/-- C4 counterexample: when the decide stage's oracle call returns a
payload missing `status`, the adapter does not fail — it returns the
payload as-is even though the payload fails the declared-shape check, the
decision state is set to the malformed payload, and the run proceeds (an
all-success run publishes the decision artifact).  The claimed
validate-before-return behavior does not exist in the adapter. -/
theorem c4_validation_counterexample :
    getDecision (.ok missingStatusPayload) = .ok missingStatusPayload ∧
    missingStatusPayload.hasKey "status" = false ∧
    validDecisionPayload missingStatusPayload = false ∧
    decisionAfterRun (.ok missingStatusPayload) = some missingStatusPayload ∧
    Event.publish .decide ∈ runTrace (fun _ => true) false := by
  refine ⟨rfl, by decide, by decide, rfl, by decide⟩

/-- C4 amended: the decide adapter fails only when the oracle call itself
fails or the response text does not parse; any payload that parses is
returned as-is and published as the decision, with no validation against
the declared shape — in particular a payload failing the declared-shape
check (such as one missing `status`) does not fail the run and the
decision fields are set to it. -/
theorem c4_no_shape_validation (v : JValue) (e : OracleFailure)
    (_hv : validDecisionPayload v = false) :
    getDecision (.ok v) = .ok v ∧
    decisionAfterRun (.ok v) = some v ∧
    getDecision (.error e) = .error e ∧
    decisionAfterRun (.error e) = none := by
  exact ⟨rfl, rfl, rfl, rfl⟩

/-- Witness for the amended C4 at the concrete missing-`status` payload
and a transport failure. -/
theorem c4_no_shape_validation_witness :
    validDecisionPayload missingStatusPayload = false ∧
    (getDecision (.ok missingStatusPayload) = .ok missingStatusPayload ∧
     decisionAfterRun (.ok missingStatusPayload) = some missingStatusPayload ∧
     getDecision (.error .transport) = .error .transport ∧
     decisionAfterRun (.error .transport) = none) :=
  ⟨by decide, c4_no_shape_validation missingStatusPayload .transport (by decide)⟩

/-! Staleness control: the debounced real-time re-run machinery of
src/App.tsx lines 94-107.  The component state is embedded with explicit
wall-clock time and an explicit set of live `setTimeout` timers, so that
the single-flight and cancellation behavior of `debounceTimer` is a
theorem about the model rather than baked into its types. -/

/-- Component state relevant to the debounce controller: current time in
ms; whether `normalized` is non-null and whether some run has completed
all seven stages; the live (scheduled, neither fired nor cancelled)
timers as (id, deadline) pairs; `debounceTimer.current` (the id of the
last timer created, if any); a fresh-id counter; the deadlines at which
background runs have fired; and whether the component is still mounted. -/
structure AppState where
  now : Nat
  normalized : Bool
  fullRunDone : Bool
  pend : List (Nat × Nat)
  ref : Option Nat
  nextId : Nat
  fired : List Nat
  mounted : Bool
  deriving DecidableEq, Repr

/-- Initial component state: fresh mount, `normalized === null`, no timer. -/
def initApp : AppState :=
  { now := 0, normalized := false, fullRunDone := false, pend := [],
    ref := none, nextId := 0, fired := [], mounted := true }

/-- Data-state effect of one completed `runAnalysis` invocation whose
stage outcomes are `ok`: `setNormalized(norm)` runs exactly when the
normalize stage succeeded (and `normalized` is never reset to null), and
the run completed all stages iff every oracle call succeeded. -/
def runEffects (ok : Stage → Bool) (s : AppState) : AppState :=
  { s with normalized := s.normalized || ok .normalize,
           fullRunDone := s.fullRunDone || allStagesOk ok }

/-- Wall-clock time advances to `t`: every live timer whose deadline has
been reached fires, and each firing is one `runAnalysis(true)` background
run (recorded in `fired`, with stage outcomes `ok` applied to the data
state). -/
def advance (t : Nat) (ok : Stage → Bool) (s : AppState) : AppState :=
  let due := s.pend.filter (fun p => p.2 ≤ t)
  let s' := due.foldl (fun st _ => runEffects ok st) s
  { s' with pend := s.pend.filter (fun p => t < p.2),
            fired := s.fired ++ due.map Prod.snd,
            now := t }

/-- Body of the debounce `useEffect` (src/App.tsx lines 94-107), run when
a watched field changed at time `t`: the cleanup and the effect body
first `clearTimeout` whatever timer `debounceTimer.current` names; then,
only if `normalized` is non-null, a fresh 800 ms timer is created and
stored in `debounceTimer.current`.  If the component is no longer
mounted, no effect runs. -/
def effectBody (t : Nat) (s₁ : AppState) : AppState :=
  if s₁.mounted then
    let cleared := { s₁ with pend := s₁.pend.filter (fun p => s₁.ref ≠ some p.1) }
    if s₁.normalized then
      { cleared with pend := cleared.pend ++ [(s₁.nextId, t + 800)],
                     ref := some s₁.nextId,
                     nextId := s₁.nextId + 1 }
    else cleared
  else s₁

/-- A watched-field edit at time `t`: time first advances to `t` (timers
already due fire), then the effect re-runs. -/
def editStep (t : Nat) (ok : Stage → Bool) (s : AppState) : AppState :=
  effectBody t (advance t ok s)

/-- Component teardown at time `t`: the effect cleanup (src/App.tsx lines
104-106) clears the timer `debounceTimer.current` names, and the
component unmounts. -/
def unmountStep (t : Nat) (ok : Stage → Bool) (s : AppState) : AppState :=
  let s₁ := advance t ok s
  { s₁ with pend := s₁.pend.filter (fun p => s₁.ref ≠ some p.1),
            mounted := false }

/-- Externally visible happenings driving the component: a user-initiated
interactive run (`runAnalysis(false)` from the Proceed button, which does
not touch the debounce timer), a watched-field edit, plain passage of
time, and teardown.  The `ok` of an event gives the stage outcomes of
any run it causes or lets fire. -/
inductive AppEvent
  | interact (ok : Stage → Bool)
  | edit (t : Nat) (ok : Stage → Bool)
  | elapse (t : Nat) (ok : Stage → Bool)
  | unmount (t : Nat) (ok : Stage → Bool)

/-- One step of the component model. -/
def stepApp (s : AppState) : AppEvent → AppState
  | .interact ok => runEffects ok s
  | .edit t ok => editStep t ok s
  | .elapse t ok => advance t ok s
  | .unmount t ok => unmountStep t ok s

/-- The component state after a sequence of events. -/
def runApp (s : AppState) (evs : List AppEvent) : AppState :=
  evs.foldl stepApp s

/-- Firing background runs touches only the `normalized`/`fullRunDone`
data flags: the timer bookkeeping fields are untouched, and `normalized`
can only move from null to non-null, never back. -/
theorem foldl_runEffects_frame (ok : Stage → Bool) (l : List (Nat × Nat))
    (s : AppState) :
    (l.foldl (fun st _ => runEffects ok st) s).pend = s.pend ∧
    (l.foldl (fun st _ => runEffects ok st) s).ref = s.ref ∧
    (l.foldl (fun st _ => runEffects ok st) s).nextId = s.nextId ∧
    (l.foldl (fun st _ => runEffects ok st) s).fired = s.fired ∧
    (l.foldl (fun st _ => runEffects ok st) s).mounted = s.mounted ∧
    ((l.foldl (fun st _ => runEffects ok st) s).normalized = false →
      s.normalized = false) := by
  induction l generalizing s with
  | nil => exact ⟨rfl, rfl, rfl, rfl, rfl, fun h => h⟩
  | cons x xs ih =>
    obtain ⟨h1, h2, h3, h4, h5, h6⟩ := ih (runEffects ok s)
    refine ⟨h1, h2, h3, h4, h5, fun h => ?_⟩
    have h' := h6 h
    simp only [runEffects, Bool.or_eq_false_iff] at h'
    exact h'.1

theorem advance_pend (t : Nat) (ok : Stage → Bool) (s : AppState) :
    (advance t ok s).pend = s.pend.filter (fun p => t < p.2) := rfl

theorem advance_fired (t : Nat) (ok : Stage → Bool) (s : AppState) :
    (advance t ok s).fired =
      s.fired ++ (s.pend.filter (fun p => p.2 ≤ t)).map Prod.snd := rfl

theorem advance_ref (t : Nat) (ok : Stage → Bool) (s : AppState) :
    (advance t ok s).ref = s.ref :=
  (foldl_runEffects_frame ok _ s).2.1

theorem advance_nextId (t : Nat) (ok : Stage → Bool) (s : AppState) :
    (advance t ok s).nextId = s.nextId :=
  (foldl_runEffects_frame ok _ s).2.2.1

theorem advance_mounted (t : Nat) (ok : Stage → Bool) (s : AppState) :
    (advance t ok s).mounted = s.mounted :=
  (foldl_runEffects_frame ok _ s).2.2.2.2.1

theorem advance_normalized_false (t : Nat) (ok : Stage → Bool) (s : AppState)
    (h : (advance t ok s).normalized = false) : s.normalized = false :=
  (foldl_runEffects_frame ok _ s).2.2.2.2.2 h

/-- Single-flight shape of the timer set: no live timer, or exactly one
and `debounceTimer.current` names it. -/
def singleFlight (s : AppState) : Prop :=
  s.pend = [] ∨ ∃ i d, s.pend = [(i, d)] ∧ s.ref = some i

theorem advance_singleFlight (t : Nat) (ok : Stage → Bool) (s : AppState)
    (h : singleFlight s) : singleFlight (advance t ok s) := by
  rcases h with h | ⟨i, d, hp, hr⟩
  · left
    rw [advance_pend, h]
    rfl
  · by_cases ht : t < d
    · right
      refine ⟨i, d, ?_, ?_⟩
      · rw [advance_pend, hp]
        simp [ht]
      · rw [advance_ref]
        exact hr
    · left
      rw [advance_pend, hp]
      simp [ht]

/-- When the component is unmounted, the debounce effect does not run. -/
theorem effectBody_of_unmounted (t : Nat) (s₁ : AppState)
    (hm : s₁.mounted = false) : effectBody t s₁ = s₁ := by
  unfold effectBody
  rw [if_neg (by simp [hm])]

/-- When mounted and `normalized` exists, the effect clears the timer
`debounceTimer.current` names and schedules a fresh one 800 ms out. -/
theorem effectBody_pend_schedule (t : Nat) (s₁ : AppState)
    (hm : s₁.mounted = true) (hn : s₁.normalized = true) :
    (effectBody t s₁).pend =
      s₁.pend.filter (fun p => s₁.ref ≠ some p.1) ++ [(s₁.nextId, t + 800)] ∧
    (effectBody t s₁).ref = some s₁.nextId ∧
    (effectBody t s₁).mounted = true ∧
    (effectBody t s₁).normalized = true ∧
    (effectBody t s₁).fired = s₁.fired := by
  unfold effectBody
  rw [if_pos hm, if_pos hn]
  exact ⟨rfl, rfl, hm, hn, rfl⟩

/-- When mounted but `normalized` is still null, the effect only clears;
no new timer is scheduled. -/
theorem effectBody_pend_noschedule (t : Nat) (s₁ : AppState)
    (hm : s₁.mounted = true) (hn : s₁.normalized = false) :
    (effectBody t s₁).pend = s₁.pend.filter (fun p => s₁.ref ≠ some p.1) ∧
    (effectBody t s₁).fired = s₁.fired := by
  unfold effectBody
  rw [if_pos hm, if_neg (by simp [hn])]
  exact ⟨rfl, rfl⟩

/-- The debounce effect never changes `normalized`. -/
theorem effectBody_normalized (t : Nat) (s₁ : AppState) :
    (effectBody t s₁).normalized = s₁.normalized := by
  by_cases hm : s₁.mounted = true
  · by_cases hn : s₁.normalized = true
    · rw [(effectBody_pend_schedule t s₁ hm hn).2.2.2.1, hn]
    · simp only [Bool.not_eq_true] at hn
      unfold effectBody
      rw [if_pos hm, if_neg (by simp [hn])]
  · simp only [Bool.not_eq_true] at hm
    rw [effectBody_of_unmounted t s₁ hm]

theorem effectBody_singleFlight (t : Nat) (s₁ : AppState)
    (h : singleFlight s₁) : singleFlight (effectBody t s₁) := by
  have hcl : s₁.pend.filter (fun p => s₁.ref ≠ some p.1) = [] := by
    rcases h with h | ⟨i, d, hp, hr⟩
    · rw [h]; rfl
    · rw [hp, hr]; simp
  by_cases hm : s₁.mounted = true
  · by_cases hn : s₁.normalized = true
    · obtain ⟨hpend, href, _⟩ := effectBody_pend_schedule t s₁ hm hn
      right
      exact ⟨s₁.nextId, t + 800, by rw [hpend, hcl]; rfl, href⟩
    · simp only [Bool.not_eq_true] at hn
      obtain ⟨hpend, _⟩ := effectBody_pend_noschedule t s₁ hm hn
      left
      rw [hpend, hcl]
  · simp only [Bool.not_eq_true] at hm
    rw [effectBody_of_unmounted t s₁ hm]
    exact h

theorem unmountStep_clears (t : Nat) (ok : Stage → Bool) (s : AppState)
    (h : singleFlight s) :
    (unmountStep t ok s).pend = [] ∧ (unmountStep t ok s).mounted = false := by
  refine ⟨?_, rfl⟩
  show (advance t ok s).pend.filter (fun p => (advance t ok s).ref ≠ some p.1) = []
  rcases advance_singleFlight t ok s h with h₁ | ⟨i, d, hp, hr⟩
  · rw [h₁]; rfl
  · rw [hp, hr]; simp

theorem stepApp_singleFlight (s : AppState) (e : AppEvent)
    (h : singleFlight s) : singleFlight (stepApp s e) := by
  cases e with
  | interact ok =>
    rcases h with h | ⟨i, d, hp, hr⟩
    · exact Or.inl h
    · exact Or.inr ⟨i, d, hp, hr⟩
  | edit t ok => exact effectBody_singleFlight t _ (advance_singleFlight t ok s h)
  | elapse t ok => exact advance_singleFlight t ok s h
  | unmount t ok => exact Or.inl (unmountStep_clears t ok s h).1

theorem runApp_singleFlight (evs : List AppEvent) (s : AppState)
    (h : singleFlight s) : singleFlight (runApp s evs) := by
  induction evs generalizing s with
  | nil => exact h
  | cons e evs ih => exact ih (stepApp s e) (stepApp_singleFlight s e h)

/-- After teardown, nothing ever fires again: an unmounted component with
an empty timer set stays that way and its fired list never grows. -/
theorem stepApp_unmounted (s : AppState) (e : AppEvent)
    (hm : s.mounted = false) (hp : s.pend = []) :
    (stepApp s e).mounted = false ∧ (stepApp s e).pend = [] ∧
    (stepApp s e).fired = s.fired := by
  cases e with
  | interact ok => exact ⟨hm, hp, rfl⟩
  | edit t ok =>
    have hm₁ : (advance t ok s).mounted = false := by
      rw [advance_mounted]; exact hm
    show (effectBody t (advance t ok s)).mounted = false ∧
      (effectBody t (advance t ok s)).pend = [] ∧
      (effectBody t (advance t ok s)).fired = s.fired
    rw [effectBody_of_unmounted t _ hm₁]
    refine ⟨hm₁, ?_, ?_⟩
    · rw [advance_pend, hp]; rfl
    · rw [advance_fired, hp]; simp
  | elapse t ok =>
    refine ⟨?_, ?_, ?_⟩
    · show (advance t ok s).mounted = false
      rw [advance_mounted]; exact hm
    · show (advance t ok s).pend = []
      rw [advance_pend, hp]; rfl
    · show (advance t ok s).fired = s.fired
      rw [advance_fired, hp]; simp
  | unmount t ok =>
    refine ⟨rfl, ?_, ?_⟩
    · show (advance t ok s).pend.filter (fun p => (advance t ok s).ref ≠ some p.1) = []
      have : (advance t ok s).pend = [] := by rw [advance_pend, hp]; rfl
      rw [this]; rfl
    · show (advance t ok s).fired = s.fired
      rw [advance_fired, hp]; simp

theorem runApp_unmounted (evs : List AppEvent) (s : AppState)
    (hm : s.mounted = false) (hp : s.pend = []) :
    (runApp s evs).fired = s.fired := by
  induction evs generalizing s with
  | nil => rfl
  | cons e evs ih =>
    obtain ⟨h1, h2, h3⟩ := stepApp_unmounted s e hm hp
    rw [show runApp s (e :: evs) = runApp (stepApp s e) evs from rfl, ih _ h1 h2, h3]

theorem advance_of_pend_nil (t : Nat) (ok : Stage → Bool) (s : AppState)
    (hp : s.pend = []) :
    (advance t ok s).pend = [] ∧ (advance t ok s).fired = s.fired ∧
    (advance t ok s).normalized = s.normalized := by
  refine ⟨by rw [advance_pend, hp]; rfl, by rw [advance_fired, hp]; simp, ?_⟩
  calc (advance t ok s).normalized
      = ((s.pend.filter (fun p => p.2 ≤ t)).foldl
          (fun st _ => runEffects ok st) s).normalized := rfl
    _ = s.normalized := by rw [hp]; rfl

/-- Advancing to a time before the single live timer's deadline fires
nothing and leaves the timer live. -/
theorem advance_of_pending_live (t : Nat) (ok : Stage → Bool) (s : AppState)
    (i d : Nat) (hp : s.pend = [(i, d)]) (ht : t < d) :
    (advance t ok s).pend = [(i, d)] ∧ (advance t ok s).fired = s.fired ∧
    (advance t ok s).normalized = s.normalized := by
  have hd : ¬ d ≤ t := by omega
  refine ⟨by rw [advance_pend, hp]; simp [ht], ?_, ?_⟩
  · rw [advance_fired, hp]; simp [hd]
  · calc (advance t ok s).normalized
        = ((s.pend.filter (fun p => p.2 ≤ t)).foldl
            (fun st _ => runEffects ok st) s).normalized := rfl
      _ = s.normalized := by rw [hp]; simp [hd]

/-- Advancing past the single live timer's deadline fires it: exactly one
background run, recorded at the timer's deadline. -/
theorem advance_fires (t : Nat) (ok : Stage → Bool) (s : AppState)
    (i d : Nat) (hp : s.pend = [(i, d)]) (hd : d ≤ t) :
    (advance t ok s).pend = [] ∧ (advance t ok s).fired = s.fired ++ [d] := by
  constructor
  · rw [advance_pend, hp]
    have : ¬ t < d := by omega
    simp [this]
  · rw [advance_fired, hp]
    simp [hd]

/-- Shape of the controller state while one debounce timer is pending
with deadline `dl`: mounted, `normalized` exists, and the single-flight
timer is the one `debounceTimer.current` names. -/
def pendingShape (s : AppState) (dl : Nat) : Prop :=
  s.mounted = true ∧ s.normalized = true ∧
  ∃ i, s.pend = [(i, dl)] ∧ s.ref = some i

/-- An edit while a timer is pending and not yet due cancels it and
schedules a fresh timer 800 ms from the edit; no background run fires. -/
theorem editStep_pending (t dl : Nat) (ok : Stage → Bool) (s : AppState)
    (h : pendingShape s dl) (ht : t < dl) :
    pendingShape (editStep t ok s) (t + 800) ∧
    (editStep t ok s).fired = s.fired := by
  obtain ⟨hm, hn, i, hp, hr⟩ := h
  obtain ⟨ha1, ha2, ha3⟩ := advance_of_pending_live t ok s i dl hp ht
  have hm₁ : (advance t ok s).mounted = true := by rw [advance_mounted]; exact hm
  have hn₁ : (advance t ok s).normalized = true := by rw [ha3]; exact hn
  have hr₁ : (advance t ok s).ref = some i := by rw [advance_ref]; exact hr
  obtain ⟨hpend, href, hmo, hno, hfi⟩ :=
    effectBody_pend_schedule t (advance t ok s) hm₁ hn₁
  have hcl : (advance t ok s).pend.filter
      (fun p => (advance t ok s).ref ≠ some p.1) = [] := by
    rw [ha1, hr₁]; simp
  refine ⟨⟨hmo, hno, (advance t ok s).nextId, ?_, href⟩, ?_⟩
  · show (effectBody t (advance t ok s)).pend = [((advance t ok s).nextId, t + 800)]
    rw [hpend, hcl]
    rfl
  · show (effectBody t (advance t ok s)).fired = s.fired
    rw [hfi, ha2]

/-- The first edit after `normalized` appears, from a timer-free state:
it schedules the first debounce timer, 800 ms out. -/
theorem editStep_ready (t : Nat) (ok : Stage → Bool) (s : AppState)
    (hm : s.mounted = true) (hn : s.normalized = true) (hp : s.pend = []) :
    pendingShape (editStep t ok s) (t + 800) ∧
    (editStep t ok s).fired = s.fired := by
  obtain ⟨ha1, ha2, ha3⟩ := advance_of_pend_nil t ok s hp
  have hm₁ : (advance t ok s).mounted = true := by rw [advance_mounted]; exact hm
  have hn₁ : (advance t ok s).normalized = true := by rw [ha3]; exact hn
  obtain ⟨hpend, href, hmo, hno, hfi⟩ :=
    effectBody_pend_schedule t (advance t ok s) hm₁ hn₁
  refine ⟨⟨hmo, hno, (advance t ok s).nextId, ?_, href⟩, ?_⟩
  · show (effectBody t (advance t ok s)).pend = [((advance t ok s).nextId, t + 800)]
    rw [hpend, ha1]
    rfl
  · show (effectBody t (advance t ok s)).fired = s.fired
    rw [hfi, ha2]

/-- Edit times `us` all fall within the debounce window opened by the
previous edit: each is later than the previous edit but earlier than the
previous edit's 800 ms deadline. -/
def withinWindow : Nat → List Nat → Prop
  | _, [] => True
  | prev, u :: us => prev < u ∧ u < prev + 800 ∧ withinWindow u us

instance decWithinWindow : (prev : Nat) → (us : List Nat) →
    Decidable (withinWindow prev us)
  | _, [] => .isTrue trivial
  | _prev, u :: us =>
    have := decWithinWindow u us
    inferInstanceAs (Decidable (_ ∧ _ ∧ _))

/-- A burst of edits all inside each other's debounce windows keeps
exactly one timer pending — the one belonging to the latest edit — and
fires no background run. -/
theorem edits_within_window (us : List Nat) :
    ∀ (s : AppState) (tPrev : Nat) (ok : Stage → Bool),
      pendingShape s (tPrev + 800) → withinWindow tPrev us →
      pendingShape (runApp s (us.map fun u => AppEvent.edit u ok))
        (us.getLastD tPrev + 800) ∧
      (runApp s (us.map fun u => AppEvent.edit u ok)).fired = s.fired := by
  induction us with
  | nil => exact fun s tPrev ok h _ => ⟨h, rfl⟩
  | cons u us ih =>
    intro s tPrev ok h hw
    obtain ⟨h₁, h₂, h₃⟩ := hw
    have he := editStep_pending u (tPrev + 800) ok s h h₂
    have hrec := ih (editStep u ok s) u ok he.1 h₃
    refine ⟨?_, by rw [List.map_cons]; exact hrec.2.trans he.2⟩
    rw [List.getLastD_cons, List.map_cons]
    exact hrec.1

/-- The debounce effect can only be re-run by a watched-field edit; no
step of the model turns `normalized` from non-null back to null. -/
theorem stepApp_normalized_false (s : AppState) (e : AppEvent)
    (h : (stepApp s e).normalized = false) : s.normalized = false := by
  cases e with
  | interact ok =>
    have h' : (runEffects ok s).normalized = false := h
    simp only [runEffects, Bool.or_eq_false_iff] at h'
    exact h'.1
  | edit t ok =>
    have h' : (effectBody t (advance t ok s)).normalized = false := h
    rw [effectBody_normalized] at h'
    exact advance_normalized_false t ok s h'
  | elapse t ok => exact advance_normalized_false t ok s h
  | unmount t ok =>
    have h' : (advance t ok s).normalized = false := h
    exact advance_normalized_false t ok s h'

theorem runApp_normalized_false (evs : List AppEvent) (s : AppState)
    (h : (runApp s evs).normalized = false) : s.normalized = false := by
  induction evs generalizing s with
  | nil => exact h
  | cons e evs ih => exact stepApp_normalized_false s e (ih (stepApp s e) h)

/-- A state with no timer ever scheduled and no background run ever
fired. -/
def quiescent (s : AppState) : Prop := s.pend = [] ∧ s.fired = []

theorem stepApp_quiescent (s : AppState) (e : AppEvent)
    (hq : quiescent s) (hn : (stepApp s e).normalized = false) :
    quiescent (stepApp s e) := by
  have hs : s.normalized = false := stepApp_normalized_false s e hn
  obtain ⟨hp, hf⟩ := hq
  cases e with
  | interact ok => exact ⟨hp, by rw [show (stepApp s (.interact ok)).fired = s.fired from rfl, hf]⟩
  | elapse t ok =>
    refine ⟨?_, ?_⟩
    · show (advance t ok s).pend = []
      rw [advance_pend, hp]; rfl
    · show (advance t ok s).fired = []
      rw [advance_fired, hp, hf]; simp
  | edit t ok =>
    obtain ⟨ha1, ha2, ha3⟩ := advance_of_pend_nil t ok s hp
    have hn₁ : (advance t ok s).normalized = false := by rw [ha3]; exact hs
    by_cases hm₁ : (advance t ok s).mounted = true
    · obtain ⟨hpend, hfi⟩ := effectBody_pend_noschedule t (advance t ok s) hm₁ hn₁
      refine ⟨?_, ?_⟩
      · show (effectBody t (advance t ok s)).pend = []
        rw [hpend, ha1]; rfl
      · show (effectBody t (advance t ok s)).fired = []
        rw [hfi, ha2, hf]
    · simp only [Bool.not_eq_true] at hm₁
      refine ⟨?_, ?_⟩
      · show (effectBody t (advance t ok s)).pend = []
        rw [effectBody_of_unmounted t _ hm₁, ha1]
      · show (effectBody t (advance t ok s)).fired = []
        rw [effectBody_of_unmounted t _ hm₁, ha2, hf]
  | unmount t ok =>
    obtain ⟨ha1, ha2, _⟩ := advance_of_pend_nil t ok s hp
    refine ⟨?_, ?_⟩
    · show (advance t ok s).pend.filter
        (fun p => (advance t ok s).ref ≠ some p.1) = []
      rw [ha1]; rfl
    · show (advance t ok s).fired = []
      rw [ha2, hf]

theorem runApp_quiescent (evs : List AppEvent) (s : AppState)
    (hq : quiescent s) (hn : (runApp s evs).normalized = false) :
    quiescent (runApp s evs) := by
  induction evs generalizing s with
  | nil => exact hq
  | cons e evs ih =>
    have hn₁ : (stepApp s e).normalized = false :=
      runApp_normalized_false evs (stepApp s e) hn
    exact ih (stepApp s e) (stepApp_quiescent s e hq hn₁) hn

/-- The concrete history refuting C5 as stated: an interactive run whose
normalize stage succeeds but whose financial-risk stage fails (so no full
pipeline run ever completes), then a watched-field edit at t=1000 ms, then
time passing to t=1800 ms. -/
def c5Trace : List AppEvent :=
  [.interact (fun s => s = Stage.normalize),
   .edit 1000 (fun _ => false),
   .elapse 1800 (fun _ => false)]

/-- C5 counterexample: in `c5Trace` no run ever completes all stages
(`fullRunDone` is false throughout — it is monotone and false at the
end), yet the edit schedules a debounce timer and a background run fires
at t=1800 ms.  "Before the first full run has ever completed, edits never
schedule or trigger background runs" is false of the code: the guard in
src/App.tsx line 98 is `normalized !== null`, which is already true after
a run that fails beyond its normalize stage. -/
theorem c5_guard_counterexample :
    (runApp initApp (c5Trace.take 2)).pend = [(0, 1800)] ∧
    (runApp initApp (c5Trace.take 2)).fullRunDone = false ∧
    (runApp initApp c5Trace).fired = [1800] ∧
    (runApp initApp c5Trace).fullRunDone = false := by
  refine ⟨by decide, by decide, by decide, by decide⟩

/-- C5 amended: while no normalized data exists (`normalized === null`),
watched-field edits never schedule a debounce timer and never trigger a
background run — at any point of any history whose present state still
has `normalized` null, the timer set and the fired-run list are empty.
(The guard is normalized-data existence, not first-full-run completion.) -/
theorem c5_no_background_before_normalized (evs₁ evs₂ : List AppEvent)
    (h : (runApp initApp (evs₁ ++ evs₂)).normalized = false) :
    (runApp initApp evs₁).pend = [] ∧ (runApp initApp evs₁).fired = [] := by
  have hsplit : runApp initApp (evs₁ ++ evs₂) =
      runApp (runApp initApp evs₁) evs₂ := by
    unfold runApp
    rw [List.foldl_append]
  rw [hsplit] at h
  exact runApp_quiescent evs₁ initApp ⟨rfl, rfl⟩
    (runApp_normalized_false evs₂ _ h)

/-- Witness for the amended C5: a history of two edits with no run ever
started leaves `normalized` null, and indeed nothing is scheduled or
fired at its midpoint. -/
theorem c5_no_background_before_normalized_witness :
    (runApp initApp ([AppEvent.edit 5 (fun _ => true)] ++
      [AppEvent.edit 90 (fun _ => true)])).normalized = false ∧
    ((runApp initApp [AppEvent.edit 5 (fun _ => true)]).pend = [] ∧
     (runApp initApp [AppEvent.edit 5 (fun _ => true)]).fired = []) :=
  ⟨by decide,
   c5_no_background_before_normalized [AppEvent.edit 5 (fun _ => true)]
     [AppEvent.edit 90 (fun _ => true)] (by decide)⟩

/-- A component state ready for real-time updates: just mounted and with
normalized data, no timer yet. -/
def readyState : AppState := { initApp with normalized := true }

/-- A component state with one pending debounce timer (id 7, deadline
1800 ms) that `debounceTimer.current` names. -/
def readyPend : AppState :=
  { initApp with normalized := true, pend := [(7, 1800)], ref := some 7 }

/-- C6: the debounce timer is single-flight.  (a) In every reachable
state at most one timer is pending.  (b) An edit while a timer is pending
and not yet due cancels it and starts a fresh 800 ms timer, firing
nothing.  (c) After teardown no orphaned timer ever fires: events after
the unmount do not grow the fired-run list.  (d) A burst of N edits, each
within the previous edit's debounce window, ends in exactly one
background run, fired 800 ms after the last edit. -/
theorem c6_debounce_single_flight :
    (∀ evs : List AppEvent, (runApp initApp evs).pend.length ≤ 1) ∧
    (∀ (s : AppState) (dl t : Nat) (ok : Stage → Bool),
      pendingShape s dl → t < dl →
      pendingShape (editStep t ok s) (t + 800) ∧
      (editStep t ok s).fired = s.fired) ∧
    (∀ (evs : List AppEvent) (t : Nat) (ok : Stage → Bool)
      (evs₂ : List AppEvent),
      (runApp initApp (evs ++ AppEvent.unmount t ok :: evs₂)).fired =
        (runApp initApp (evs ++ [AppEvent.unmount t ok])).fired) ∧
    (∀ (s : AppState) (t₀ : Nat) (us : List Nat) (ok : Stage → Bool),
      s.mounted = true → s.normalized = true → s.pend = [] →
      withinWindow t₀ us →
      (runApp s ((t₀ :: us).map (fun u => AppEvent.edit u ok) ++
        [AppEvent.elapse (us.getLastD t₀ + 800) ok])).fired =
        s.fired ++ [us.getLastD t₀ + 800]) := by
  refine ⟨?_, ?_, ?_, ?_⟩
  · intro evs
    rcases runApp_singleFlight evs initApp (Or.inl rfl) with h | ⟨i, d, hp, _⟩
    · rw [h]; simp
    · rw [hp]; simp
  · exact fun s dl t ok h ht => editStep_pending t dl ok s h ht
  · intro evs t ok evs₂
    have hcl := unmountStep_clears t ok (runApp initApp evs)
      (runApp_singleFlight evs initApp (Or.inl rfl))
    have hsplit₁ : runApp initApp (evs ++ AppEvent.unmount t ok :: evs₂) =
        runApp (unmountStep t ok (runApp initApp evs)) evs₂ := by
      unfold runApp
      rw [List.foldl_append]
      rfl
    have hsplit₂ : runApp initApp (evs ++ [AppEvent.unmount t ok]) =
        unmountStep t ok (runApp initApp evs) := by
      unfold runApp
      rw [List.foldl_append]
      rfl
    rw [hsplit₁, hsplit₂]
    exact runApp_unmounted evs₂ _ hcl.2 hcl.1
  · intro s t₀ us ok hm hn hp hw
    obtain ⟨hps, hfi⟩ := editStep_ready t₀ ok s hm hn hp
    obtain ⟨hps₂, hfi₂⟩ := edits_within_window us (editStep t₀ ok s) t₀ ok hps hw
    obtain ⟨_, _, j, hpj, _⟩ := hps₂
    have hfinal : runApp s ((t₀ :: us).map (fun u => AppEvent.edit u ok) ++
        [AppEvent.elapse (us.getLastD t₀ + 800) ok]) =
        advance (us.getLastD t₀ + 800) ok
          (runApp (editStep t₀ ok s) (us.map fun u => AppEvent.edit u ok)) := by
      unfold runApp
      rw [List.map_cons, List.foldl_append]
      rfl
    rw [hfinal,
      (advance_fires (us.getLastD t₀ + 800) ok _ j (us.getLastD t₀ + 800) hpj
        (le_refl _)).2,
      hfi₂, hfi]

/-- Witness for C6 at concrete states and times: a single edit leaves at
most one timer; an edit at 1200 ms over a timer due at 1800 ms replaces
it with one due at 2000 ms; events after an unmount fire nothing; and two
edits at 1000 ms and 1500 ms produce exactly one background run at
2300 ms. -/
theorem c6_debounce_single_flight_witness :
    (runApp initApp [AppEvent.edit 5 (fun _ => true)]).pend.length ≤ 1 ∧
    (pendingShape readyPend 1800 ∧ 1200 < 1800 ∧
      (pendingShape (editStep 1200 (fun _ => true) readyPend) (1200 + 800) ∧
       (editStep 1200 (fun _ => true) readyPend).fired = readyPend.fired)) ∧
    ((runApp initApp ([] ++ AppEvent.unmount 0 (fun _ => true) ::
        [AppEvent.elapse 9999 (fun _ => true)])).fired =
      (runApp initApp ([] ++ [AppEvent.unmount 0 (fun _ => true)])).fired) ∧
    ((runApp readyState ((1000 :: [1500]).map
        (fun u => AppEvent.edit u (fun _ => true)) ++
        [AppEvent.elapse (List.getLastD [1500] 1000 + 800) (fun _ => true)])).fired =
      readyState.fired ++ [List.getLastD [1500] 1000 + 800]) :=
  ⟨c6_debounce_single_flight.1 [AppEvent.edit 5 (fun _ => true)],
   ⟨⟨rfl, rfl, 7, rfl, rfl⟩, by decide,
    c6_debounce_single_flight.2.1 readyPend 1800 1200 (fun _ => true)
      ⟨rfl, rfl, 7, rfl, rfl⟩ (by decide)⟩,
   c6_debounce_single_flight.2.2.1 [] 0 (fun _ => true)
     [AppEvent.elapse 9999 (fun _ => true)],
   c6_debounce_single_flight.2.2.2 readyState 1000 [1500] (fun _ => true)
     rfl rfl rfl (by decide)⟩

/-! Borrower input snapshots (src/types.ts lines 522-533, src/App.tsx
lines 25-36 and 48-54).  `setInput(prev => ({ ...prev, [name]: value }))`
never mutates the record the in-flight run's closure captured: it builds
a fresh record and repoints the component's `input` state at it.  The
embedding makes that explicit with a heap of immutable records addressed
by allocation order, so snapshot isolation is a theorem about allocation
rather than an artifact of Lean's value semantics. -/

/-- The `BorrowerInput` record of src/types.ts; `number` fields (the five
watched sliders) as integers, the free-text fields as strings. -/
structure BorrowerInput where
  businessType : String
  industry : String
  revenue : Int
  cashFlowStability : Int
  debtToIncomeRatio : Int
  creditHistory : String
  energySource : String
  carbonIntensity : Int
  laborCompliance : Int
  regulatoryIssues : String
  deriving DecidableEq, Repr

/-- The initial `useState<BorrowerInput>` record of src/App.tsx lines
25-36. -/
def defaultInput : BorrowerInput :=
  { businessType := "SME", industry := "Manufacturing", revenue := 5000000,
    cashFlowStability := 75, debtToIncomeRatio := 35,
    creditHistory := "7 years clean",
    energySource := "Grid Mix (Coal heavy)", carbonIntensity := 80,
    laborCompliance := 90, regulatoryIssues := "None" }

/-- One `handleInputChange` (or business-type button) update: the field
named by the event target and its new value, numeric for `range`/`number`
inputs (`Number(value)`), string otherwise. -/
inductive InputPatch
  | businessType (v : String)
  | industry (v : String)
  | revenue (v : Int)
  | cashFlowStability (v : Int)
  | debtToIncomeRatio (v : Int)
  | creditHistory (v : String)
  | energySource (v : String)
  | carbonIntensity (v : Int)
  | laborCompliance (v : Int)
  | regulatoryIssues (v : String)
  deriving DecidableEq, Repr

/-- The spread update `{ ...prev, [name]: value }`: a new record equal to
`prev` except at the named field. -/
def applyPatch (b : BorrowerInput) : InputPatch → BorrowerInput
  | .businessType v => { b with businessType := v }
  | .industry v => { b with industry := v }
  | .revenue v => { b with revenue := v }
  | .cashFlowStability v => { b with cashFlowStability := v }
  | .debtToIncomeRatio v => { b with debtToIncomeRatio := v }
  | .creditHistory v => { b with creditHistory := v }
  | .energySource v => { b with energySource := v }
  | .carbonIntensity v => { b with carbonIntensity := v }
  | .laborCompliance v => { b with laborCompliance := v }
  | .regulatoryIssues v => { b with regulatoryIssues := v }

/-- The `input` state cell seen as a heap: every `BorrowerInput` record
ever allocated (its address is its list index), plus the address `input`
currently points to.  A run captures the address current when it starts. -/
structure InputStore where
  heap : List BorrowerInput
  cur : Nat
  deriving DecidableEq, Repr

/-- `handleInputChange` (src/App.tsx lines 48-54): read the current
record, allocate a fresh record with the named field updated, repoint
`input`.  No existing heap cell is ever written. -/
def handleInputChange (st : InputStore) (p : InputPatch) : InputStore :=
  match st.heap[st.cur]? with
  | some b => { heap := st.heap ++ [applyPatch b p], cur := st.heap.length }
  | none => st

/-- A sequence of edits applied to the input cell. -/
def applyEdits (st : InputStore) (ps : List InputPatch) : InputStore :=
  ps.foldl handleInputChange st

/-- The `NormalizedData.financial` group (src/types.ts lines 536-541). -/
structure FinancialVector where
  revenueScore : Int
  cashFlowStability : Int
  debtRatio : Int
  creditScore : Int
  deriving DecidableEq, Repr

/-- The `NormalizedData.sustainability` group (src/types.ts lines
542-547). -/
structure SustainabilityVector where
  energyCleanliness : Int
  carbonEfficiency : Int
  laborEthics : Int
  regulatoryRisk : Int
  deriving DecidableEq, Repr

/-- `NormalizedData` (src/types.ts lines 535-548). -/
structure NormalizedData where
  financial : FinancialVector
  sustainability : SustainabilityVector
  deriving DecidableEq, Repr

/-- The `band` enum of `FinancialRiskResponse`. -/
inductive RiskBand
  | Low
  | Medium
  | High
  deriving DecidableEq, Repr

/-- One entry of `FinancialRiskResponse.breakdown`. -/
structure BreakdownEntry where
  name : String
  value : Int
  deriving DecidableEq, Repr

/-- `FinancialRiskResponse` (src/types.ts lines 550-555). -/
structure FinancialRiskResponse where
  score : Int
  band : RiskBand
  breakdown : List BreakdownEntry
  summary : String
  deriving DecidableEq, Repr

/-- One entry of `SustainabilityRiskResponse.sdgs`. -/
structure SdgEntry where
  subject : String
  A : Int
  fullMark : Int
  deriving DecidableEq, Repr

/-- `SustainabilityRiskResponse` (src/types.ts lines 557-561). -/
structure SustainabilityRiskResponse where
  score : Int
  sdgs : List SdgEntry
  impactDescription : String
  deriving DecidableEq, Repr

/-- The `status` enum of `DecisionResponse`. -/
inductive DecisionStatus
  | GreenApproved
  | Conditional
  | Rejected
  deriving DecidableEq, Repr

/-- `DecisionResponse` (src/types.ts lines 563-568). -/
structure DecisionResponse where
  greenCreditScore : Int
  status : DecisionStatus
  justification : String
  aprAdjustment : String
  deriving DecidableEq, Repr

/-- One entry of `UpliftPlan.recommendations`. -/
structure Recommendation where
  title : String
  action : String
  impact : String
  deriving DecidableEq, Repr

/-- `UpliftPlan` (src/types.ts lines 570-578). -/
structure UpliftPlan where
  currentScore : Int
  projectedScore : Int
  recommendations : List Recommendation
  deriving DecidableEq, Repr

/-- `ClimateScenario` (src/types.ts lines 580-585). -/
structure ClimateScenario where
  scenario : String
  financialImpact : Int
  sustainabilityImpact : Int
  totalScore : Int
  deriving DecidableEq, Repr

/-- The successful artifacts the oracle produces during one run; the
feeds of the later stages are built from these. -/
structure OracleOutputs where
  norm : NormalizedData
  fin : FinancialRiskResponse
  sust : SustainabilityRiskResponse
  dec : DecisionResponse
  up : UpliftPlan
  sim : List ClimateScenario
  deriving DecidableEq, Repr

/-- The exact argument data `runAnalysis` passes to each stage's adapter
(src/App.tsx lines 60-80): `normalizeData(input)`,
`assessFinancialRisk(norm)`, `assessSustainabilityRisk(norm)`,
`getDecision(fin, sust)`, `planUplift(sust)`, `simulateClimate(fin,
sust)`, `getReview({norm, fin, sust, dec, up, sim})`. -/
inductive StageFeed
  | normalizeFeed (input : BorrowerInput)
  | financialFeed (data : NormalizedData)
  | sustainabilityFeed (data : NormalizedData)
  | decisionFeed (fin : FinancialRiskResponse) (sust : SustainabilityRiskResponse)
  | upliftFeed (current : SustainabilityRiskResponse)
  | simulateFeed (fin : FinancialRiskResponse) (sust : SustainabilityRiskResponse)
  | reviewFeed (norm : NormalizedData) (fin : FinancialRiskResponse)
      (sust : SustainabilityRiskResponse) (dec : DecisionResponse)
      (up : UpliftPlan) (sim : List ClimateScenario)
  deriving DecidableEq, Repr

/-- The feed of each stage in a run that starts from input snapshot
`snapshot` and whose oracle calls return the artifacts in `o`. -/
def stageFeeds (o : OracleOutputs) (snapshot : BorrowerInput) : Stage → StageFeed
  | .normalize => .normalizeFeed snapshot
  | .scoreFinancial => .financialFeed o.norm
  | .scoreSustainability => .sustainabilityFeed o.norm
  | .decide => .decisionFeed o.fin o.sust
  | .planUplift => .upliftFeed o.sust
  | .simulateScenarios => .simulateFeed o.fin o.sust
  | .summarizeForReview => .reviewFeed o.norm o.fin o.sust o.dec o.up o.sim

/-- The feeds of a run that captured the input record at address `a` of
the store (none if the address is dangling). -/
def runFeedsFrom (st : InputStore) (a : Nat) (o : OracleOutputs) :
    Option (Stage → StageFeed) :=
  st.heap[a]?.map (stageFeeds o)

/-- One edit only allocates: every live address keeps its record, and the
heap only grows. -/
theorem handleInputChange_preserves (st : InputStore) (p : InputPatch)
    (a : Nat) (h : a < st.heap.length) :
    (handleInputChange st p).heap[a]? = st.heap[a]? ∧
    st.heap.length ≤ (handleInputChange st p).heap.length := by
  cases hg : st.heap[st.cur]? with
  | none => simp [handleInputChange, hg]
  | some b =>
    simp only [handleInputChange, hg]
    constructor
    · rw [List.getElem?_append, if_pos h]
    · simp

theorem applyEdits_preserves (ps : List InputPatch) :
    ∀ (st : InputStore) (a : Nat), a < st.heap.length →
      (applyEdits st ps).heap[a]? = st.heap[a]? ∧
      st.heap.length ≤ (applyEdits st ps).heap.length := by
  induction ps with
  | nil => exact fun st a _ => ⟨rfl, le_refl _⟩
  | cons p ps ih =>
    intro st a h
    obtain ⟨h1, h2⟩ := handleInputChange_preserves st p a h
    obtain ⟨h3, h4⟩ := ih (handleInputChange st p) a (lt_of_lt_of_le h h2)
    exact ⟨h3.trans h1, h2.trans h4⟩

/-- C9: a run reads the borrower input as an immutable snapshot captured
at start.  Whatever edits are applied to the input cell while the run is
in flight, every stage of the run receives exactly the data it would have
received with no edits at all; and any two runs whose captured snapshots
are the same record feed identical data to every stage. -/
theorem c9_snapshot_immutable (st : InputStore) (ps : List InputPatch)
    (h : st.cur < st.heap.length) (o : OracleOutputs) :
    runFeedsFrom (applyEdits st ps) st.cur o = runFeedsFrom st st.cur o ∧
    ∀ (st' : InputStore) (a' : Nat),
      st'.heap[a']? = st.heap[st.cur]? →
      runFeedsFrom st' a' o = runFeedsFrom st st.cur o := by
  refine ⟨?_, fun st' a' hh => ?_⟩
  · unfold runFeedsFrom
    rw [(applyEdits_preserves ps st st.cur h).1]
  · unfold runFeedsFrom
    rw [hh]

/-- Concrete oracle artifacts for the C9 witness. -/
def sampleOutputs : OracleOutputs :=
  { norm := { financial := { revenueScore := 70, cashFlowStability := 75,
                             debtRatio := 65, creditScore := 80 },
              sustainability := { energyCleanliness := 30, carbonEfficiency := 20,
                                  laborEthics := 90, regulatoryRisk := 85 } },
    fin := { score := 72, band := .Medium,
             breakdown := [{ name := "Liquidity", value := 70 }],
             summary := "Stable revenue, moderate leverage" },
    sust := { score := 55,
              sdgs := [{ subject := "Climate Action", A := 40, fullMark := 100 }],
              impactDescription := "Mixed impact profile" },
    dec := { greenCreditScore := 68, status := .Conditional,
             justification := "Moderate combined risk", aprAdjustment := "0.50%" },
    up := { currentScore := 55, projectedScore := 70,
            recommendations := [{ title := "Solar offset",
                                  action := "Install rooftop panels",
                                  impact := "+10" }] },
    sim := [{ scenario := "Net Zero 2050", financialImpact := -5,
              sustainabilityImpact := 15, totalScore := 60 }] }

/-- Witness for C9: from a store holding only the default input, a slider
edit of carbon intensity to 20 during the run leaves the run's feeds
untouched. -/
theorem c9_snapshot_immutable_witness :
    runFeedsFrom (applyEdits ⟨[defaultInput], 0⟩ [InputPatch.carbonIntensity 20])
        0 sampleOutputs =
      runFeedsFrom ⟨[defaultInput], 0⟩ 0 sampleOutputs ∧
    ∀ (st' : InputStore) (a' : Nat),
      st'.heap[a']? = (⟨[defaultInput], 0⟩ : InputStore).heap[0]? →
      runFeedsFrom st' a' sampleOutputs =
        runFeedsFrom ⟨[defaultInput], 0⟩ 0 sampleOutputs :=
  c9_snapshot_immutable ⟨[defaultInput], 0⟩ [InputPatch.carbonIntensity 20]
    (by decide) sampleOutputs

end GreenCredit
